import Mathlib

/-!
Shallow embedding of `src/ApiTranslator/_deepLTranslator.py` (class
`DeepLTranslator`).

The configuration table `managed_languages_DEEPL` lives in `_config.py`
and the exception classes in `Exceptions.py`; neither file is part of the
sources here, so the table is kept as an explicit parameter (a list of
entries, as the spec describes it) and the three imported exception
classes become constructors of an error type.  Python-level effects are
made explicit: the `deepl` SDK client is represented by the key it was
built from, the remote service by an oracle `Remote`, the process
environment by a partial map, and every network round trip is recorded in
a list of `NetCall`s returned alongside the result.
-/

/-- Python `str.upper()` (basic-latin letters, as Lean's `Char.toUpper`):
defined directly on the character list so that the kernel can evaluate it
on literals; agrees with `String.toUpper` (see `pyUpper_eq_toUpper`). -/
def String.pyUpper (s : String) : String :=
  ⟨s.data.map Char.toUpper⟩

/-- One entry of the `managed_languages_DEEPL` configuration table:
a Python dict with keys `name`, `language` and (usually)
`supports_formality`.  A missing `supports_formality` key is `none`. -/
structure LangEntry where
  name : String
  language : String
  supports_formality : Option Bool
  deriving DecidableEq, Repr

/-- The exceptions the adapter can raise: the three classes imported from
`Exceptions.py`, plus Python builtin `KeyError` (raised by a dict access
on a missing key), a bare `Exception(...)`, and re-raised SDK errors. -/
inductive PyError where
  | deepLAuthKeyNotSet (msg : String)
  | deepLAuthKeyWrong (msg : String)
  | deepLLanguageTargetNotManaged (language : String) (managedKeys : List String)
  | keyError (key : String)
  | genericException (msg : String)
  | sdkError (msg : String)
  deriving DecidableEq, Repr

/-- Whether an error is one of the three user-facing exception classes
imported from `Exceptions.py` (the module error taxonomy). -/
def PyError.isUserFacing : PyError → Bool
  | .deepLAuthKeyNotSet _ => true
  | .deepLAuthKeyWrong _ => true
  | .deepLLanguageTargetNotManaged _ _ => true
  | _ => false

/-- Outcome of `translator_object.get_usage()` for a given key: succeeds,
raises `deepl.exceptions.AuthorizationException`, or raises some other
exception. -/
inductive UsageResult where
  | ok
  | authorizationException
  | otherException (msg : String)
  deriving DecidableEq, Repr

/-- The remote DeepL service reached through the SDK, as an oracle:
how `get_usage()` behaves for a client built from a given key, and the
`.text` of the result of `translate_text` (text, target_lang, formality,
preserve_formatting). -/
structure Remote where
  usage : String → UsageResult
  translateText : String → Option String → Option String → Bool → String

/-- A network round trip issued through the SDK client. -/
inductive NetCall where
  | getUsage (key : String)
  | translateTextCall (text : String) (target_lang : Option String)
      (formality : Option String) (preserve_formatting : Bool)
  deriving DecidableEq, Repr

/-- The mutable state of a `DeepLTranslator` instance: `translator_object`
is the key the current `deepl.Translator` was built from (`none` before
any client was created). -/
structure DeepLTranslator where
  translator_object : Option String
  target_language_full : String
  source_language : String
  deriving DecidableEq, Repr

instance {ε α : Type} [DecidableEq ε] [DecidableEq α] :
    DecidableEq (Except ε α) := fun x y =>
  match x, y with
  | .ok a, .ok b =>
      if h : a = b then isTrue (by rw [h])
      else isFalse (fun hh => by cases hh; exact h rfl)
  | .error a, .error b =>
      if h : a = b then isTrue (by rw [h])
      else isFalse (fun hh => by cases hh; exact h rfl)
  | .ok _, .error _ => isFalse (fun hh => by cases hh)
  | .error _, .ok _ => isFalse (fun hh => by cases hh)

/-- Python `dict.update({k: v})`: replace the value in place if the key is
present, otherwise append the binding. -/
def dictUpdate (d : List (String × String)) (k v : String) :
    List (String × String) :=
  if d.any (fun p => p.1 = k) then
    d.map (fun p => if p.1 = k then (k, v) else p)
  else
    d ++ [(k, v)]

/-- Python `dict.get(k)`: the value bound to `k`, if any. -/
def dictGet (d : List (String × String)) (k : String) : Option String :=
  (d.find? (fun p => p.1 = k)).map (fun p => p.2)

/-- `managed_languages`: builds `{lang["name"].upper(): lang["language"]}`
for every entry, by successive dict updates. -/
def managed_languages (table : List LangEntry) : List (String × String) :=
  table.foldl (fun d l => dictUpdate d l.name.pyUpper l.language) []

/-- `check_if_language_managed`: raises
`DeepLLanguageTargetNotManagedException` when the dict lookup (default
`""`, then `.upper()`) is falsy; the exception carries the offending
language and `list(self.managed_languages().keys())`. -/
def check_if_language_managed (table : List LangEntry)
    (st : DeepLTranslator) : Except PyError Unit :=
  if ((dictGet (managed_languages table) st.target_language_full.pyUpper).getD "").pyUpper = "" then
    .error (.deepLLanguageTargetNotManaged st.target_language_full
      ((managed_languages table).map (fun p => p.1)))
  else
    .ok ()

/-- `__init__`: uppercase the target language, store both languages, then
`check_if_language_managed`. -/
def DeepLTranslator.init (table : List LangEntry)
    (target_language_full source_language : String) :
    Except PyError DeepLTranslator :=
  let st : DeepLTranslator :=
    { translator_object := none
      target_language_full := target_language_full.pyUpper
      source_language := source_language }
  match check_if_language_managed table st with
  | .error e => .error e
  | .ok _ => .ok st

/-- `check_auth`: raises `DeepLAuthKeyNotSetException` when no client was
ever set; otherwise issues `get_usage()`, turning
`AuthorizationException` into `DeepLAuthKeyWrongException` (with the
given or the default message) and re-raising anything else unchanged. -/
def DeepLTranslator.check_auth (st : DeepLTranslator) (remote : Remote)
    (message_error : Option String) : Except PyError Unit × List NetCall :=
  let msg := message_error.getD
    "Authentification failed. Please use the method auth() before trying anything else."
  match st.translator_object with
  | none =>
      (.error (.deepLAuthKeyNotSet
        "Authentification failed because not set.Please use the method auth() before trying anything else."), [])
  | some key =>
      match remote.usage key with
      | .ok => (.ok (), [.getUsage key])
      | .authorizationException =>
          (.error (.deepLAuthKeyWrong msg), [.getUsage key])
      | .otherException m => (.error (.sdkError m), [.getUsage key])

/-- `_auth_from_env_file`: after `load_dotenv()` (folded into `env`),
raises `DeepLAuthKeyNotSetException` when `KEY_DEEPL_API` is unset or
empty; otherwise builds the client from it and runs `check_auth` with the
.env-specific message.  Returns result, new state and network calls. -/
def DeepLTranslator.auth_from_env_file (st : DeepLTranslator)
    (remote : Remote) (env : String → Option String) :
    Except PyError Unit × DeepLTranslator × List NetCall :=
  match env "KEY_DEEPL_API" with
  | none =>
      (.error (.deepLAuthKeyNotSet
        "The Auth key for DeepL was not found in the .env file, please set it as \x27KEY_DEEPL_API\x27"), st, [])
  | some k =>
      if k = "" then
        (.error (.deepLAuthKeyNotSet
          "The Auth key for DeepL was not found in the .env file, please set it as \x27KEY_DEEPL_API\x27"), st, [])
      else
        let st' : DeepLTranslator := { st with translator_object := some k }
        let r := st'.check_auth remote (some
          "The authentification key set in the .env is wrong, please check it, or use auth(key_deepl_api) to set it manually in your object.")
        (r.1, st', r.2)

/-- `auth`: with a falsy key (Python `None` or `""`) fall back to
`_auth_from_env_file`; otherwise build the client from the key and run
`check_auth` with the explicit-key message. -/
def DeepLTranslator.auth (st : DeepLTranslator) (remote : Remote)
    (env : String → Option String) (key_deepl_api : Option String) :
    Except PyError Unit × DeepLTranslator × List NetCall :=
  match key_deepl_api with
  | none => st.auth_from_env_file remote env
  | some k =>
      if k = "" then st.auth_from_env_file remote env
      else
        let st' : DeepLTranslator := { st with translator_object := some k }
        let r := st'.check_auth remote (some
          "The authentification key passed is wrong, please check it.")
        (r.1, st', r.2)

/-- The `for lang in managed_languages_DEEPL` loop of
`check_if_language_can_be_formal`: first entry whose uppercased name
matches decides; `lang["supports_formality"]` on a missing key is a
`KeyError`; falling off the loop raises the bare `Exception`. -/
def formal_lookup (target : String) : List LangEntry → Except PyError Bool
  | [] =>
      .error (.genericException
        "Could not find the supports_formality key in the _config.py file for the managed_languages_DEEPL variable, abort")
  | l :: rest =>
      if l.name.pyUpper = target.pyUpper then
        match l.supports_formality with
        | none => .error (.keyError "supports_formality")
        | some false => .ok false
        | some true => .ok true
      else
        formal_lookup target rest

/-- `check_if_language_can_be_formal` on an instance. -/
def DeepLTranslator.check_if_language_can_be_formal (st : DeepLTranslator)
    (table : List LangEntry) : Except PyError Bool :=
  formal_lookup st.target_language_full table

/-- `get_target_language_key`: re-run `check_if_language_managed`, then
`managed_languages().get(self.target_language_full)` (no default, no
upper on this final lookup). -/
def DeepLTranslator.get_target_language_key (st : DeepLTranslator)
    (table : List LangEntry) : Except PyError (Option String) :=
  match check_if_language_managed table st with
  | .error e => .error e
  | .ok _ => .ok (dictGet (managed_languages table) st.target_language_full)

/-- `translate`: `check_auth()` with the default message, then branch on
`check_if_language_can_be_formal()`; both branches call `translate_text`
with `target_lang=self.get_target_language_key()` and
`preserve_formatting=True`, the formal branch also with
`formality="more"`; returns `result.text`. -/
def DeepLTranslator.translate (st : DeepLTranslator)
    (table : List LangEntry) (remote : Remote) (text_to_translate : String) :
    Except PyError String × List NetCall :=
  match st.check_auth remote none with
  | (.error e, calls) => (.error e, calls)
  | (.ok _, calls) =>
      match st.check_if_language_can_be_formal table with
      | .error e => (.error e, calls)
      | .ok formal =>
          match st.get_target_language_key table with
          | .error e => (.error e, calls)
          | .ok tkey =>
              let fm : Option String := if formal then some "more" else none
              (.ok (remote.translateText text_to_translate tkey fm true),
                calls ++ [.translateTextCall text_to_translate tkey fm true])

/-- `get_module_api`. -/
def DeepLTranslator.get_module_api (_st : DeepLTranslator) : String :=
  "DEEPL"

/-- Modelled from the spec: the configuration table
`managed_languages_DEEPL` of `_config.py` is not among the sources; the
spec gives its entry shape and the two scenario entries
`{name:"French", language_key:"FR", supports_formality:true}` and
`{name:"Japanese", language_key:"JA", supports_formality:false}`. -/
def managed_languages_DEEPL : List LangEntry :=
  [ { name := "French", language := "FR", supports_formality := some true },
    { name := "Japanese", language := "JA", supports_formality := some false } ]

/-! ### Helper lemmas -/

theorem char_toNat_ofNat_valid (m : Nat) (h : m.isValidChar) :
    (Char.ofNat m).toNat = m := by
  rw [Char.ofNat, dif_pos h]
  rfl

theorem char_toUpper_toUpper (c : Char) : c.toUpper.toUpper = c.toUpper := by
  unfold Char.toUpper
  by_cases h : c.toNat ≥ 97 ∧ c.toNat ≤ 122
  · rw [if_pos h]
    have hv : (c.toNat - 32).isValidChar := Or.inl (by omega)
    have ht : (Char.ofNat (c.toNat - 32)).toNat = c.toNat - 32 :=
      char_toNat_ofNat_valid _ hv
    rw [if_neg]
    rw [ht]
    omega
  · rw [if_neg h, if_neg h]

theorem pyUpper_pyUpper (s : String) : s.pyUpper.pyUpper = s.pyUpper := by
  show String.mk _ = String.mk _
  rw [String.pyUpper, List.map_map]
  exact congrArg String.mk (List.map_congr_left fun c _ => char_toUpper_toUpper c)

theorem pyUpper_eq_toUpper (s : String) : s.pyUpper = s.toUpper := by
  rw [String.toUpper, String.map_eq]
  rfl

theorem pyUpper_eq_empty_iff (s : String) : s.pyUpper = "" ↔ s = "" := by
  constructor
  · intro h
    have hd : s.data.map Char.toUpper = [] := congrArg String.data h
    have : s.data = [] := List.map_eq_nil_iff.1 hd
    cases s
    simp_all
  · intro h
    rw [h]
    rfl

theorem mem_dictUpdate {d : List (String × String)} {k v : String}
    {p : String × String} (h : p ∈ dictUpdate d k v) :
    p ∈ d ∨ p = (k, v) := by
  unfold dictUpdate at h
  by_cases hc : d.any (fun q => q.1 = k)
  · rw [if_pos hc] at h
    rcases List.mem_map.1 h with ⟨q, hq, hfq⟩
    by_cases hqk : q.1 = k
    · right
      rw [if_pos hqk] at hfq
      exact hfq.symm
    · left
      rw [if_neg hqk] at hfq
      exact hfq ▸ hq
  · rw [if_neg hc] at h
    rcases List.mem_append.1 h with h | h
    · exact Or.inl h
    · exact Or.inr (List.mem_singleton.1 h)

theorem dictUpdate_any_of_any {d : List (String × String)} {k' k v : String}
    (h : d.any (fun p => p.1 = k') = true) :
    (dictUpdate d k v).any (fun p => p.1 = k') = true := by
  unfold dictUpdate
  rcases List.any_eq_true.1 h with ⟨q, hq, hq'⟩
  by_cases hc : d.any (fun q => q.1 = k)
  · rw [if_pos hc]
    refine List.any_eq_true.2 ?_
    by_cases hqk : q.1 = k
    · exact ⟨(k, v), List.mem_map.2 ⟨q, hq, by rw [if_pos hqk]⟩, by
        simp at hq' ⊢
        rw [← hqk, hq']⟩
    · exact ⟨q, List.mem_map.2 ⟨q, hq, by rw [if_neg hqk]⟩, hq'⟩
  · rw [if_neg hc]
    exact List.any_eq_true.2 ⟨q, List.mem_append_left _ hq, hq'⟩

theorem dictUpdate_any_self {d : List (String × String)} {k v : String} :
    (dictUpdate d k v).any (fun p => p.1 = k) = true := by
  unfold dictUpdate
  by_cases hc : d.any (fun q => q.1 = k)
  · rw [if_pos hc]
    rcases List.any_eq_true.1 hc with ⟨q, hq, hq'⟩
    refine List.any_eq_true.2 ⟨(k, v), List.mem_map.2 ⟨q, hq, ?_⟩, by simp⟩
    simp at hq'
    rw [if_pos hq']
  · rw [if_neg hc]
    exact List.any_eq_true.2 ⟨(k, v), List.mem_append_right _ (List.mem_singleton.2 rfl), by simp⟩

theorem any_foldl_dictUpdate (table : List LangEntry) (k : String) :
    ∀ acc : List (String × String), acc.any (fun p => p.1 = k) = true →
    (table.foldl (fun d l => dictUpdate d l.name.pyUpper l.language) acc).any
      (fun p => p.1 = k) = true := by
  induction table with
  | nil => exact fun _ h => h
  | cons l rest ih =>
      intro acc h
      exact ih _ (dictUpdate_any_of_any h)

theorem any_managed_of_mem {table : List LangEntry} {e : LangEntry}
    (he : e ∈ table) :
    (managed_languages table).any (fun p => p.1 = e.name.pyUpper) = true := by
  unfold managed_languages
  suffices h : ∀ (t : List LangEntry) (acc : List (String × String)), e ∈ t →
      (t.foldl (fun d l => dictUpdate d l.name.pyUpper l.language) acc).any
        (fun p => p.1 = e.name.pyUpper) = true from h table [] he
  intro t
  induction t with
  | nil => intro _ h; cases h
  | cons l rest ih =>
      intro acc hmem
      rcases List.mem_cons.1 hmem with rfl | hmem
      · exact any_foldl_dictUpdate rest _ _ dictUpdate_any_self
      · exact ih _ hmem

theorem mem_foldl_dictUpdate {t : List LangEntry} :
    ∀ {acc : List (String × String)} {p : String × String},
    p ∈ t.foldl (fun d l => dictUpdate d l.name.pyUpper l.language) acc →
    p ∈ acc ∨ ∃ l ∈ t, p = (l.name.pyUpper, l.language) := by
  induction t with
  | nil => exact fun h => Or.inl h
  | cons l rest ih =>
      intro acc p h
      rcases ih h with h' | ⟨l', hl', hp⟩
      · rcases mem_dictUpdate h' with h'' | h''
        · exact Or.inl h''
        · exact Or.inr ⟨l, List.mem_cons_self _ _, h''⟩
      · exact Or.inr ⟨l', List.mem_cons_of_mem _ hl', hp⟩

theorem mem_managed_languages {table : List LangEntry} {p : String × String}
    (h : p ∈ managed_languages table) :
    ∃ l ∈ table, p = (l.name.pyUpper, l.language) := by
  rcases mem_foldl_dictUpdate h with h' | h'
  · cases h'
  · exact h'

theorem dictGet_eq_some_of_any {d : List (String × String)} {k : String}
    (h : d.any (fun p => p.1 = k) = true) :
    ∃ v, dictGet d k = some v ∧ (k, v) ∈ d := by
  rcases List.any_eq_true.1 h with ⟨q, hq, hq'⟩
  have hsome : (d.find? (fun p => p.1 = k)).isSome :=
    List.find?_isSome.2 ⟨q, hq, hq'⟩
  rcases Option.isSome_iff_exists.1 hsome with ⟨r, hr⟩
  have hrk : r.1 = k := by simpa using List.find?_some hr
  refine ⟨r.2, ?_, ?_⟩
  · rw [dictGet, hr]
    rfl
  · have hmem := List.mem_of_find?_eq_some hr
    have : r = (k, r.2) := by
      rw [← hrk]
    rwa [this] at hmem

theorem dictGet_managed_none {table : List LangEntry} {k : String}
    (h : ∀ l ∈ table, l.name.pyUpper ≠ k) :
    dictGet (managed_languages table) k = none := by
  have hnone : (managed_languages table).find? (fun p => p.1 = k) = none := by
    refine List.find?_eq_none.2 ?_
    intro p hp
    rcases mem_managed_languages hp with ⟨l, hl, rfl⟩
    simp
    exact h l hl
  rw [dictGet, hnone]
  rfl

theorem foldl_dictUpdate_append (t : List LangEntry) :
    ∀ acc : List (String × String),
    (∀ l ∈ t, acc.any (fun p => p.1 = l.name.pyUpper) = false) →
    (t.map (fun l => l.name.pyUpper)).Nodup →
    t.foldl (fun d l => dictUpdate d l.name.pyUpper l.language) acc
      = acc ++ t.map (fun l => (l.name.pyUpper, l.language)) := by
  induction t with
  | nil =>
      intro acc _ _
      simp
  | cons l rest ih =>
      intro acc hacc hnd
      have hl : acc.any (fun p => p.1 = l.name.pyUpper) = false :=
        hacc l (List.mem_cons_self _ _)
      have hfresh : l.name.pyUpper ∉ rest.map (fun l => l.name.pyUpper) :=
        (List.nodup_cons.1 (by simpa using hnd)).1
      have hstep : dictUpdate acc l.name.pyUpper l.language
          = acc ++ [(l.name.pyUpper, l.language)] := by
        rw [dictUpdate, if_neg]
        simp [hl]
      rw [List.foldl_cons, hstep, ih]
      · simp
      · intro l' hl'
        have h1 : acc.any (fun p => p.1 = l'.name.pyUpper) = false :=
          hacc l' (List.mem_cons_of_mem _ hl')
        have h2 : l.name.pyUpper ≠ l'.name.pyUpper := by
          intro hEq
          exact hfresh (hEq ▸ List.mem_map_of_mem _ hl')
        simp [List.any_append, h1, h2]
      · exact (List.nodup_cons.1 (by simpa using hnd)).2

theorem managed_languages_eq_of_nodup {table : List LangEntry}
    (hnd : (table.map (fun l => l.name.pyUpper)).Nodup) :
    managed_languages table = table.map (fun l => (l.name.pyUpper, l.language)) := by
  have h := foldl_dictUpdate_append table [] (fun l _ => rfl) hnd
  simpa [managed_languages] using h

theorem find_map_of_nodup : ∀ (t : List LangEntry) (e : LangEntry),
    (t.map (fun l => l.name.pyUpper)).Nodup → e ∈ t →
    (t.map (fun l => (l.name.pyUpper, l.language))).find?
      (fun p => p.1 = e.name.pyUpper) = some (e.name.pyUpper, e.language) := by
  intro t
  induction t with
  | nil =>
      intro e _ he
      cases he
  | cons l rest ih =>
      intro e hnd he
      rcases List.mem_cons.1 he with rfl | he'
      · rw [List.map_cons, List.find?_cons_of_pos]
        simp
      · have hne : l.name.pyUpper ≠ e.name.pyUpper := by
          have h1 : l.name.pyUpper ∉ rest.map (fun l => l.name.pyUpper) :=
            (List.nodup_cons.1 (by simpa using hnd)).1
          intro hEq
          exact h1 (hEq ▸ List.mem_map_of_mem _ he')
        rw [List.map_cons, List.find?_cons_of_neg]
        · exact ih e (List.nodup_cons.1 (by simpa using hnd)).2 he'
        · simp [hne]

theorem dictGet_managed_of_nodup {table : List LangEntry} {e : LangEntry}
    (hnd : (table.map (fun l => l.name.pyUpper)).Nodup) (he : e ∈ table) :
    dictGet (managed_languages table) e.name.pyUpper = some e.language := by
  rw [managed_languages_eq_of_nodup hnd, dictGet, find_map_of_nodup table e hnd he]
  rfl

theorem check_auth_none {st : DeepLTranslator} {remote : Remote}
    {msg : Option String} (h : st.translator_object = none) :
    st.check_auth remote msg
      = (.error (.deepLAuthKeyNotSet
          "Authentification failed because not set.Please use the method auth() before trying anything else."), []) := by
  rw [DeepLTranslator.check_auth, h]

theorem check_auth_usage_ok {st : DeepLTranslator} {remote : Remote}
    {msg : Option String} {key : String} (h1 : st.translator_object = some key)
    (h2 : remote.usage key = .ok) :
    st.check_auth remote msg = (.ok (), [.getUsage key]) := by
  rw [DeepLTranslator.check_auth, h1]
  simp only [h2]

theorem check_auth_usage_rejected {st : DeepLTranslator} {remote : Remote}
    {msg : Option String} {key : String} (h1 : st.translator_object = some key)
    (h2 : remote.usage key = .authorizationException) :
    st.check_auth remote msg
      = (.error (.deepLAuthKeyWrong (msg.getD
          "Authentification failed. Please use the method auth() before trying anything else.")), [.getUsage key]) := by
  rw [DeepLTranslator.check_auth, h1]
  simp only [h2]

theorem check_auth_usage_other {st : DeepLTranslator} {remote : Remote}
    {msg : Option String} {key m : String} (h1 : st.translator_object = some key)
    (h2 : remote.usage key = .otherException m) :
    st.check_auth remote msg = (.error (.sdkError m), [.getUsage key]) := by
  rw [DeepLTranslator.check_auth, h1]
  simp only [h2]

theorem check_managed_ok {table : List LangEntry} {st : DeepLTranslator}
    {v : String}
    (h : dictGet (managed_languages table) st.target_language_full.pyUpper = some v)
    (hv : v ≠ "") :
    check_if_language_managed table st = .ok () := by
  rw [check_if_language_managed, if_neg]
  rw [h]
  show ¬ v.pyUpper = ""
  rw [pyUpper_eq_empty_iff]
  exact hv

theorem check_managed_error {table : List LangEntry} {st : DeepLTranslator}
    (h : dictGet (managed_languages table) st.target_language_full.pyUpper = none) :
    check_if_language_managed table st
      = .error (.deepLLanguageTargetNotManaged st.target_language_full
          ((managed_languages table).map (fun p => p.1))) := by
  rw [check_if_language_managed, if_pos]
  rw [h]
  rfl

theorem init_ok_inv {table : List LangEntry} {s src : String}
    {st : DeepLTranslator}
    (h : DeepLTranslator.init table s src = .ok st) :
    st = ⟨none, s.pyUpper, src⟩
      ∧ check_if_language_managed table ⟨none, s.pyUpper, src⟩ = .ok () := by
  rw [DeepLTranslator.init] at h
  cases hc : check_if_language_managed table ⟨none, s.pyUpper, src⟩ with
  | error e =>
      rw [hc] at h
      cases h
  | ok u =>
      rw [hc] at h
      cases h
      exact ⟨rfl, by cases u; rfl⟩

theorem init_ok_of_check {table : List LangEntry} {s src : String}
    (h : check_if_language_managed table ⟨none, s.pyUpper, src⟩ = .ok ()) :
    DeepLTranslator.init table s src = .ok ⟨none, s.pyUpper, src⟩ := by
  rw [DeepLTranslator.init, h]

theorem init_error_of_check {table : List LangEntry} {s src : String}
    {e : PyError}
    (h : check_if_language_managed table ⟨none, s.pyUpper, src⟩ = .error e) :
    DeepLTranslator.init table s src = .error e := by
  rw [DeepLTranslator.init, h]

theorem formal_lookup_append {pre : List LangEntry} {target : String}
    (hpre : ∀ l ∈ pre, l.name.pyUpper ≠ target.pyUpper) :
    ∀ t : List LangEntry, formal_lookup target (pre ++ t) = formal_lookup target t := by
  induction pre with
  | nil => intro t; rfl
  | cons l rest ih =>
      intro t
      have hl : l.name.pyUpper ≠ target.pyUpper := hpre l (List.mem_cons_self _ _)
      rw [List.cons_append, formal_lookup, if_neg hl]
      exact ih (fun l' hl' => hpre l' (List.mem_cons_of_mem _ hl')) t

theorem formal_lookup_of_nodup :
    ∀ (t : List LangEntry) (e : LangEntry) (target : String),
    (t.map (fun l => l.name.pyUpper)).Nodup → e ∈ t →
    target.pyUpper = e.name.pyUpper →
    formal_lookup target t
      = (match e.supports_formality with
         | none => .error (.keyError "supports_formality")
         | some false => .ok false
         | some true => .ok true) := by
  intro t
  induction t with
  | nil =>
      intro e _ _ he _
      cases he
  | cons l rest ih =>
      intro e target hnd he htgt
      rcases List.mem_cons.1 he with rfl | he'
      · rw [formal_lookup, if_pos htgt.symm]
      · have hne : l.name.pyUpper ≠ e.name.pyUpper := by
          have h1 : l.name.pyUpper ∉ rest.map (fun l => l.name.pyUpper) :=
            (List.nodup_cons.1 (by simpa using hnd)).1
          intro hEq
          exact h1 (hEq ▸ List.mem_map_of_mem _ he')
        rw [formal_lookup, if_neg (by rw [htgt]; exact hne)]
        exact ih e target (List.nodup_cons.1 (by simpa using hnd)).2 he' htgt

theorem auth_preserves_target (st : DeepLTranslator) (remote : Remote)
    (env : String → Option String) (k : Option String) :
    ((st.auth remote env k).2.1).target_language_full = st.target_language_full := by
  have henvfile : ((st.auth_from_env_file remote env).2.1).target_language_full
      = st.target_language_full := by
    rw [DeepLTranslator.auth_from_env_file]
    cases env "KEY_DEEPL_API" with
    | none => rfl
    | some k' =>
        by_cases hk : k' = ""
        · simp only [if_pos hk]
        · simp only [if_neg hk]
  rw [DeepLTranslator.auth.eq_def]
  cases k with
  | none => exact henvfile
  | some k' =>
      by_cases hk : k' = ""
      · simp only [if_pos hk]
        exact henvfile
      · simp only [if_neg hk]

theorem translate_check_auth_error {st : DeepLTranslator}
    {table : List LangEntry} {remote : Remote} {text : String} {e : PyError}
    {calls : List NetCall} (h : st.check_auth remote none = (.error e, calls)) :
    st.translate table remote text = (.error e, calls) := by
  rw [DeepLTranslator.translate.eq_def, h]

theorem auth_some_key (st : DeepLTranslator) (remote : Remote)
    (env : String → Option String) {k : String} (hk : k ≠ "") :
    st.auth remote env (some k)
      = ((({ st with translator_object := some k } : DeepLTranslator).check_auth remote
            (some "The authentification key passed is wrong, please check it.")).1,
         { st with translator_object := some k },
         (({ st with translator_object := some k } : DeepLTranslator).check_auth remote
            (some "The authentification key passed is wrong, please check it.")).2) := by
  show (if k = "" then st.auth_from_env_file remote env
    else
      let st' : DeepLTranslator := { st with translator_object := some k }
      let r := st'.check_auth remote
        (some "The authentification key passed is wrong, please check it.")
      (r.1, st', r.2)) = _
  rw [if_neg hk]

/-- A remote that accepts every key; translations are not inspected. -/
def okRemote : Remote :=
  { usage := fun _ => .ok, translateText := fun _ _ _ _ => "Bonjour" }

/-- A remote whose usage query raises `AuthorizationException` for every
key. -/
def rejectRemote : Remote :=
  { usage := fun _ => .authorizationException, translateText := fun _ _ _ _ => "" }

/-- An environment with `KEY_DEEPL_API` unset. -/
def noEnv : String → Option String := fun _ => none

/-! ### Claims -/

/-- C1: for every entry of the configuration table, constructing the
adapter with that entry's display name in any letter case succeeds and the
stored target language is the uppercased input; for every name not in the
table, construction fails with the unmanaged-language exception carrying
the uppercased name and the list of currently supported (uppercased)
language names. -/
theorem c1_construction (table : List LangEntry)
    (hvals : ∀ l ∈ table, l.language ≠ "") :
    (∀ e ∈ table, ∀ s src : String, s.pyUpper = e.name.pyUpper →
      DeepLTranslator.init table s src
        = .ok { translator_object := none, target_language_full := s.pyUpper,
                source_language := src })
    ∧ (∀ s src : String, (∀ l ∈ table, l.name.pyUpper ≠ s.pyUpper) →
      DeepLTranslator.init table s src
        = .error (.deepLLanguageTargetNotManaged s.pyUpper
            ((managed_languages table).map (fun p => p.1)))) := by
  constructor
  · intro e he s src hs
    obtain ⟨v, hv, hmem⟩ := dictGet_eq_some_of_any (any_managed_of_mem he)
    obtain ⟨l, hl, hpl⟩ := mem_managed_languages hmem
    have hveq : v = l.language := congrArg Prod.snd hpl
    have hv' : v ≠ "" := hveq ▸ hvals l hl
    apply init_ok_of_check
    refine check_managed_ok (v := v) ?_ hv'
    show dictGet (managed_languages table) s.pyUpper.pyUpper = some v
    rw [pyUpper_pyUpper, hs]
    exact hv
  · intro s src hnone
    apply init_error_of_check
    have hget : dictGet (managed_languages table) s.pyUpper.pyUpper = none := by
      rw [pyUpper_pyUpper]
      exact dictGet_managed_none hnone
    exact check_managed_error hget

theorem c1_construction_witness :
    DeepLTranslator.init managed_languages_DEEPL "french" "English"
      = .ok { translator_object := none, target_language_full := "french".pyUpper,
              source_language := "English" }
    ∧ DeepLTranslator.init managed_languages_DEEPL "Spanish" "English"
      = .error (.deepLLanguageTargetNotManaged "Spanish".pyUpper
          ((managed_languages managed_languages_DEEPL).map (fun p => p.1))) :=
  ⟨(c1_construction managed_languages_DEEPL (by decide)).1
      ⟨"French", "FR", some true⟩ (by decide) "french" "English" (by decide),
   (c1_construction managed_languages_DEEPL (by decide)).2
      "Spanish" "English" (by decide)⟩

/-- C4: for a configured entry (table well-formed: uppercased names
pairwise distinct, non-empty backend key), constructing the adapter with
the entry's display name in any letter case succeeds and
`get_target_language_key` returns exactly the `language` value stored for
that entry. -/
theorem c4_roundtrip (table : List LangEntry)
    (hnd : (table.map (fun l => l.name.pyUpper)).Nodup)
    (e : LangEntry) (he : e ∈ table) (hval : e.language ≠ "")
    (s src : String) (hs : s.pyUpper = e.name.pyUpper) :
    ∃ st, DeepLTranslator.init table s src = .ok st
      ∧ st.get_target_language_key table = .ok (some e.language) := by
  have hget : dictGet (managed_languages table) s.pyUpper = some e.language := by
    rw [hs]
    exact dictGet_managed_of_nodup hnd he
  have hcheck : check_if_language_managed table ⟨none, s.pyUpper, src⟩ = .ok () := by
    refine check_managed_ok (v := e.language) ?_ hval
    show dictGet (managed_languages table) s.pyUpper.pyUpper = some e.language
    rw [pyUpper_pyUpper]
    exact hget
  refine ⟨_, init_ok_of_check hcheck, ?_⟩
  rw [DeepLTranslator.get_target_language_key, hcheck]
  show Except.ok (dictGet (managed_languages table) s.pyUpper) = _
  rw [hget]

theorem c4_roundtrip_witness :
    ∃ st, DeepLTranslator.init managed_languages_DEEPL "fRenCh" "English" = .ok st
      ∧ st.get_target_language_key managed_languages_DEEPL = .ok (some "FR") :=
  c4_roundtrip managed_languages_DEEPL (by decide) ⟨"French", "FR", some true⟩
    (by decide) (by decide) "fRenCh" "English" (by decide)

/-- C7: for every successfully constructed adapter, `target_language_full`
is a key of the managed-languages table (bound to a non-empty backend
key); every `auth` call leaves `target_language_full` unchanged; and
`get_target_language_key` re-runs the membership check, propagating its
failure. -/
theorem c7_invariant (table : List LangEntry) (s src : String)
    (st : DeepLTranslator)
    (hinit : DeepLTranslator.init table s src = .ok st) :
    (∃ v, dictGet (managed_languages table) st.target_language_full = some v ∧ v ≠ "")
    ∧ (∀ (remote : Remote) (env : String → Option String) (k : Option String),
        ((st.auth remote env k).2.1).target_language_full = st.target_language_full)
    ∧ (∀ (st2 : DeepLTranslator) (e : PyError),
        check_if_language_managed table st2 = .error e →
        st2.get_target_language_key table = .error e) := by
  obtain ⟨hst, hcheck⟩ := init_ok_inv hinit
  subst hst
  refine ⟨?_, fun remote env k => auth_preserves_target _ remote env k, ?_⟩
  · rw [check_if_language_managed] at hcheck
    split at hcheck
    · cases hcheck
    · rename_i hcond
      have hcond' : ¬ ((dictGet (managed_languages table) s.pyUpper.pyUpper).getD "").pyUpper = "" :=
        hcond
      rw [pyUpper_pyUpper] at hcond'
      cases hdg : dictGet (managed_languages table) s.pyUpper with
      | none =>
          rw [hdg] at hcond'
          exact absurd rfl hcond'
      | some v =>
          refine ⟨v, rfl, ?_⟩
          rw [hdg] at hcond'
          intro hv
          apply hcond'
          rw [hv]
          rfl
  · intro st2 e h
    rw [DeepLTranslator.get_target_language_key, h]

theorem c7_invariant_witness :
    (∃ v, dictGet (managed_languages managed_languages_DEEPL)
        (DeepLTranslator.mk none "JAPANESE" "en").target_language_full = some v ∧ v ≠ "")
    ∧ (∀ (remote : Remote) (env : String → Option String) (k : Option String),
        (((DeepLTranslator.mk none "JAPANESE" "en").auth remote env k).2.1).target_language_full
          = (DeepLTranslator.mk none "JAPANESE" "en").target_language_full)
    ∧ (∀ (st2 : DeepLTranslator) (e : PyError),
        check_if_language_managed managed_languages_DEEPL st2 = .error e →
        st2.get_target_language_key managed_languages_DEEPL = .error e) :=
  c7_invariant managed_languages_DEEPL "japanese" "en"
    (DeepLTranslator.mk none "JAPANESE" "en") (by decide)

/-- C2: on an authenticated adapter for a configured language (table
well-formed), `translate` issues the usage check and then exactly one
`translate_text` call with the entry's backend key,
`preserve_formatting=True`, and formality `"more"` exactly when the
entry's `supports_formality` flag is true (no formality parameter when it
is false); the result is the remote's translated text. -/
theorem c2_formality (table : List LangEntry)
    (hnd : (table.map (fun l => l.name.pyUpper)).Nodup)
    (e : LangEntry) (he : e ∈ table) (hval : e.language ≠ "")
    (b : Bool) (hf : e.supports_formality = some b)
    (remote : Remote) (key : String) (hkey : remote.usage key = .ok)
    (s src text : String) (hs : s.pyUpper = e.name.pyUpper) :
    (DeepLTranslator.mk (some key) s.pyUpper src).translate table remote text
      = (.ok (remote.translateText text (some e.language)
            (if b then some "more" else none) true),
         [.getUsage key,
          .translateTextCall text (some e.language)
            (if b then some "more" else none) true]) := by
  have hca : (DeepLTranslator.mk (some key) s.pyUpper src).check_auth remote none
      = (.ok (), [.getUsage key]) := check_auth_usage_ok rfl hkey
  have hformal : (DeepLTranslator.mk (some key) s.pyUpper src).check_if_language_can_be_formal table
      = .ok b := by
    rw [DeepLTranslator.check_if_language_can_be_formal,
        formal_lookup_of_nodup table e s.pyUpper hnd he
          (by rw [pyUpper_pyUpper]; exact hs), hf]
    cases b <;> rfl
  have hg : dictGet (managed_languages table) s.pyUpper = some e.language := by
    rw [hs]
    exact dictGet_managed_of_nodup hnd he
  have hcheck : check_if_language_managed table
      (DeepLTranslator.mk (some key) s.pyUpper src) = .ok () := by
    refine check_managed_ok (v := e.language) ?_ hval
    show dictGet (managed_languages table) s.pyUpper.pyUpper = some e.language
    rw [pyUpper_pyUpper]
    exact hg
  have hget : (DeepLTranslator.mk (some key) s.pyUpper src).get_target_language_key table
      = .ok (some e.language) := by
    rw [DeepLTranslator.get_target_language_key, hcheck]
    show Except.ok (dictGet (managed_languages table) s.pyUpper) = _
    rw [hg]
  rw [DeepLTranslator.translate.eq_def, hca, hformal, hget]
  cases b <;> rfl

theorem c2_formality_witness :
    (DeepLTranslator.mk (some "key1") "french".pyUpper "English").translate
        managed_languages_DEEPL okRemote "Hello"
      = (.ok (okRemote.translateText "Hello" (some "FR") (some "more") true),
         [.getUsage "key1",
          .translateTextCall "Hello" (some "FR") (some "more") true]) :=
  c2_formality managed_languages_DEEPL (by decide) ⟨"French", "FR", some true⟩
    (by decide) (by decide) true rfl okRemote "key1" rfl "french" "English" "Hello"
    (by decide)

/-- C3 counterexample: on the spec's own table, a `translate` before any
authentication and a no-credential `auth` with the environment variable
unset both fail with the same error class `DeepLAuthKeyNotSetException`;
the code has no separate not-authenticated error kind, contradicting the
claimed distinctness. -/
theorem c3_counterexample :
    ((DeepLTranslator.mk none "FRENCH" "en").translate managed_languages_DEEPL okRemote "Hello").1
      = .error (.deepLAuthKeyNotSet
          "Authentification failed because not set.Please use the method auth() before trying anything else.")
    ∧ ((DeepLTranslator.mk none "FRENCH" "en").auth okRemote noEnv none).1
      = .error (.deepLAuthKeyNotSet
          "The Auth key for DeepL was not found in the .env file, please set it as \x27KEY_DEEPL_API\x27") := by
  constructor <;> rfl

/-- C3 amended: calling `translate` (or `check_auth`) before any client
was ever set fails with `DeepLAuthKeyNotSetException` — the same
exception class used when the environment credential is missing, with a
dedicated message — and issues no network call; the error taxonomy has no
distinct not-authenticated kind. -/
theorem c3_amended (st : DeepLTranslator) (table : List LangEntry)
    (remote : Remote) (text : String) (msg : Option String)
    (h : st.translator_object = none) :
    st.translate table remote text
      = (.error (.deepLAuthKeyNotSet
          "Authentification failed because not set.Please use the method auth() before trying anything else."), [])
    ∧ st.check_auth remote msg
      = (.error (.deepLAuthKeyNotSet
          "Authentification failed because not set.Please use the method auth() before trying anything else."), []) :=
  ⟨translate_check_auth_error (check_auth_none h), check_auth_none h⟩

theorem c3_amended_witness :
    (DeepLTranslator.mk none "JAPANESE" "fr").translate managed_languages_DEEPL okRemote "Hi"
      = (.error (.deepLAuthKeyNotSet
          "Authentification failed because not set.Please use the method auth() before trying anything else."), [])
    ∧ (DeepLTranslator.mk none "JAPANESE" "fr").check_auth okRemote none
      = (.error (.deepLAuthKeyNotSet
          "Authentification failed because not set.Please use the method auth() before trying anything else."), []) :=
  c3_amended (DeepLTranslator.mk none "JAPANESE" "fr") managed_languages_DEEPL
    okRemote "Hi" none rfl

/-- C5: the no-credential `auth()` with `KEY_DEEPL_API` absent or empty
fails with `DeepLAuthKeyNotSetException`, leaves the adapter state
unchanged, and issues no network call. -/
theorem c5_env_not_set (st : DeepLTranslator) (remote : Remote)
    (env : String → Option String)
    (h : env "KEY_DEEPL_API" = none ∨ env "KEY_DEEPL_API" = some "") :
    st.auth remote env none
      = (.error (.deepLAuthKeyNotSet
          "The Auth key for DeepL was not found in the .env file, please set it as \x27KEY_DEEPL_API\x27"),
         st, []) := by
  have henvfile : st.auth_from_env_file remote env
      = (.error (.deepLAuthKeyNotSet
          "The Auth key for DeepL was not found in the .env file, please set it as \x27KEY_DEEPL_API\x27"),
         st, []) := by
    rcases h with h | h
    · rw [DeepLTranslator.auth_from_env_file, h]
    · rw [DeepLTranslator.auth_from_env_file, h]
      rfl
  rw [DeepLTranslator.auth.eq_def]
  exact henvfile

theorem c5_env_not_set_witness :
    (DeepLTranslator.mk none "FRENCH" "en").auth okRemote noEnv none
      = (.error (.deepLAuthKeyNotSet
          "The Auth key for DeepL was not found in the .env file, please set it as \x27KEY_DEEPL_API\x27"),
         DeepLTranslator.mk none "FRENCH" "en", []) :=
  c5_env_not_set (DeepLTranslator.mk none "FRENCH" "en") okRemote noEnv (Or.inl rfl)

/-- C6: `auth(key)` with a non-empty key installs a client built from the
key; if the remote usage query raises `AuthorizationException` the call
fails with `DeepLAuthKeyWrongException` (explicit-key message), and any
other remote failure is re-raised unchanged. -/
theorem c6_invalid_key (st : DeepLTranslator) (remote : Remote)
    (env : String → Option String) (k m : String) (hk : k ≠ "") :
    (remote.usage k = .authorizationException →
      st.auth remote env (some k)
        = (.error (.deepLAuthKeyWrong "The authentification key passed is wrong, please check it."),
           { st with translator_object := some k }, [.getUsage k]))
    ∧ (remote.usage k = .otherException m →
      st.auth remote env (some k)
        = (.error (.sdkError m),
           { st with translator_object := some k }, [.getUsage k])) := by
  constructor
  · intro h
    rw [auth_some_key st remote env hk, check_auth_usage_rejected rfl h]
    rfl
  · intro h
    rw [auth_some_key st remote env hk, check_auth_usage_other rfl h]

theorem c6_invalid_key_witness :
    (rejectRemote.usage "bad-key" = .authorizationException →
      (DeepLTranslator.mk none "FRENCH" "en").auth rejectRemote noEnv (some "bad-key")
        = (.error (.deepLAuthKeyWrong "The authentification key passed is wrong, please check it."),
           DeepLTranslator.mk (some "bad-key") "FRENCH" "en", [.getUsage "bad-key"]))
    ∧ (rejectRemote.usage "bad-key" = .otherException "boom" →
      (DeepLTranslator.mk none "FRENCH" "en").auth rejectRemote noEnv (some "bad-key")
        = (.error (.sdkError "boom"),
           DeepLTranslator.mk (some "bad-key") "FRENCH" "en", [.getUsage "bad-key"])) :=
  c6_invalid_key (DeepLTranslator.mk none "FRENCH" "en") rejectRemote noEnv
    "bad-key" "boom" (by decide)

/-- C8: when the first table entry matching the adapter's target language
lacks the `supports_formality` key, the formality query fails with a
`KeyError`, which is not one of the three user-facing exception classes. -/
theorem c8_malformed_entry (st : DeepLTranslator) (pre post : List LangEntry)
    (e : LangEntry)
    (hpre : ∀ l ∈ pre, l.name.pyUpper ≠ st.target_language_full.pyUpper)
    (hmatch : e.name.pyUpper = st.target_language_full.pyUpper)
    (hmal : e.supports_formality = none) :
    st.check_if_language_can_be_formal (pre ++ e :: post)
      = .error (.keyError "supports_formality")
    ∧ (PyError.keyError "supports_formality").isUserFacing = false := by
  refine ⟨?_, rfl⟩
  rw [DeepLTranslator.check_if_language_can_be_formal, formal_lookup_append hpre,
      formal_lookup, if_pos hmatch, hmal]

theorem c8_malformed_entry_witness :
    (DeepLTranslator.mk none "GERMAN" "en").check_if_language_can_be_formal
        ([] ++ ⟨"German", "DE", none⟩ :: [])
      = .error (.keyError "supports_formality")
    ∧ (PyError.keyError "supports_formality").isUserFacing = false :=
  c8_malformed_entry (DeepLTranslator.mk none "GERMAN" "en") [] []
    ⟨"German", "DE", none⟩ (by intro l hl; cases hl) (by decide) rfl

/-- C9: after `auth(k)` with a non-empty key the remote rejects, the
failed call still leaves the client built from `k` installed; a
subsequent `translate` does not fail with the not-set error but re-runs
the usage check with the rejected key and fails with
`DeepLAuthKeyWrongException` (default message). -/
theorem c9_nonatomic_auth (st : DeepLTranslator) (table : List LangEntry)
    (remote : Remote) (env : String → Option String) (k text : String)
    (hk : k ≠ "") (hrej : remote.usage k = .authorizationException) :
    (st.auth remote env (some k)).1
      = .error (.deepLAuthKeyWrong "The authentification key passed is wrong, please check it.")
    ∧ ((st.auth remote env (some k)).2.1).translator_object = some k
    ∧ ((st.auth remote env (some k)).2.1).translate table remote text
      = (.error (.deepLAuthKeyWrong
          "Authentification failed. Please use the method auth() before trying anything else."),
         [.getUsage k]) := by
  have h1 := auth_some_key st remote env hk
  refine ⟨?_, ?_, ?_⟩
  · rw [h1, check_auth_usage_rejected rfl hrej]
    rfl
  · rw [h1]
  · rw [h1]
    show ({ st with translator_object := some k } : DeepLTranslator).translate table remote text = _
    exact translate_check_auth_error (check_auth_usage_rejected rfl hrej)

theorem c9_nonatomic_auth_witness :
    ((DeepLTranslator.mk none "FRENCH" "en").auth rejectRemote noEnv (some "bad-key")).1
      = .error (.deepLAuthKeyWrong "The authentification key passed is wrong, please check it.")
    ∧ (((DeepLTranslator.mk none "FRENCH" "en").auth rejectRemote noEnv (some "bad-key")).2.1).translator_object
      = some "bad-key"
    ∧ (((DeepLTranslator.mk none "FRENCH" "en").auth rejectRemote noEnv (some "bad-key")).2.1).translate
        managed_languages_DEEPL rejectRemote "Hello"
      = (.error (.deepLAuthKeyWrong
          "Authentification failed. Please use the method auth() before trying anything else."),
         [.getUsage "bad-key"]) :=
  c9_nonatomic_auth (DeepLTranslator.mk none "FRENCH" "en") managed_languages_DEEPL
    rejectRemote noEnv "bad-key" "Hello" (by decide) rfl

/-- C10: `auth` with an empty-string credential does not build a client
from it but takes the environment-credential path (it behaves exactly
like the no-credential call); with `KEY_DEEPL_API` also unset it fails
with `DeepLAuthKeyNotSetException` — not the wrong-key error — leaving
the state unchanged and issuing no network call. -/
theorem c10_empty_key (st : DeepLTranslator) (remote : Remote)
    (env : String → Option String) (henv : env "KEY_DEEPL_API" = none) :
    st.auth remote env (some "")
      = (.error (.deepLAuthKeyNotSet
          "The Auth key for DeepL was not found in the .env file, please set it as \x27KEY_DEEPL_API\x27"),
         st, [])
    ∧ st.auth remote env (some "") = st.auth remote env none := by
  have h : st.auth remote env (some "") = st.auth_from_env_file remote env := by
    rw [DeepLTranslator.auth.eq_def]
    rfl
  have h0 : st.auth remote env none = st.auth_from_env_file remote env := by
    rw [DeepLTranslator.auth.eq_def]
  have henvfile : st.auth_from_env_file remote env
      = (.error (.deepLAuthKeyNotSet
          "The Auth key for DeepL was not found in the .env file, please set it as \x27KEY_DEEPL_API\x27"),
         st, []) := by
    rw [DeepLTranslator.auth_from_env_file, henv]
  exact ⟨h.trans henvfile, h.trans h0.symm⟩

theorem c10_empty_key_witness :
    (DeepLTranslator.mk none "FRENCH" "en").auth okRemote noEnv (some "")
      = (.error (.deepLAuthKeyNotSet
          "The Auth key for DeepL was not found in the .env file, please set it as \x27KEY_DEEPL_API\x27"),
         DeepLTranslator.mk none "FRENCH" "en", [])
    ∧ (DeepLTranslator.mk none "FRENCH" "en").auth okRemote noEnv (some "")
      = (DeepLTranslator.mk none "FRENCH" "en").auth okRemote noEnv none :=
  c10_empty_key (DeepLTranslator.mk none "FRENCH" "en") okRemote noEnv rfl

